import Mathlib

/-!
Verification of the functional-options construction pattern and the
bounds-checked string indexing examples from the MyArticles repository.

The Go sources are shallowly embedded:
* `Server` mirrors the Go struct `Server {host string; port int; timeout time.Duration}`.
  Durations are modelled as `Int` nanoseconds (`time.Duration` is an `int64`;
  all values involved are tiny, so no wraparound arises).
* An option `func(s *Server) error` becomes a state-passing function
  `Server → Server × Option String`: the function receives the current target,
  returns the (possibly mutated) target together with `none` (nil error) or
  `some msg` (a non-nil error carrying the Go `fmt.Errorf` message).
* `NewLocalHost(opts ...OptionsServerFunc) (*Server, error)` becomes a function
  into `Option Server × Option String`, mirroring the Go pair `(*Server, error)`.
  The loop over the options is factored through `applyOpts`, which additionally
  exposes the state of the in-construction target at the moment an option fails
  (in Go this is the heap object the discarded pointer referred to).
* Go string indexing `str[idx]`, which panics on an out-of-range index, becomes
  `goByteIndex : List Char → Int → Option Char` where `none` models the panic.
  `getCharacter` (recover-based) and `getCharIndex` (bounds-checked rewrite)
  are embedded on top of it; an `Option`-wrapped result whose value is `none`
  models an unrecovered panic escaping the function.
-/

namespace MyArticles

/-- Mirror of the Go struct `Server`; `timeout` is in nanoseconds. -/
structure Server where
  host : String
  port : Int
  timeout : Int
deriving DecidableEq

/-- The value of `time.Second` in nanoseconds. -/
def second : Int := 1000000000

/-- Mirror of `type OptionsServerFunc func(c *Server) error`, as a state-passing
function returning the mutated target and the Go error (`none` = nil). -/
abbrev OptionsServerFunc := Server → Server × Option String

/-- Mirror of `WithPort` as defined with validation (src/unnamed/part_000 lines 197-207):
sets the port when `5000 <= port < 10000`, otherwise reports an error and
leaves the target unchanged. -/
def WithPort (port : Int) : OptionsServerFunc := fun s =>
  if 5000 ≤ port ∧ port < 10000 then
    ({ s with port := port }, none)
  else
    (s, some ("port " ++ toString port ++ " is out of the valid range (5000-9999)"))

/-- Mirror of `WithTimeout` (src/unnamed/part_000 lines 270-272): sets the timeout,
never fails. -/
def WithTimeout (t : Int) : OptionsServerFunc := fun c =>
  ({ c with timeout := t }, none)

/-- The `WithPort` of the consolidated final listing (src/unnamed/part_000
lines 274-276), which omits the range validation. -/
def WithPortFinal (p : Int) : OptionsServerFunc := fun c =>
  ({ c with port := p }, none)

/-- The default target built at the top of `NewLocalHost`. -/
def defaultServer : Server :=
  { host := "127.0.0.1", port := 8080, timeout := 3 * second }

/-- The `for _, opt := range opts` loop of `NewLocalHost`: threads the target
through the options, stopping at the first error.  The returned `Server` is
the state of the in-construction target when the loop ends (also when it ends
with an error, in which case `NewLocalHost` discards it). -/
def applyOpts : List OptionsServerFunc → Server → Server × Option String
  | [], s => (s, none)
  | opt :: rest, s =>
    match opt s with
    | (s', none) => applyOpts rest s'
    | (s', some e) => (s', some e)

/-- Mirror of `NewLocalHost(opts ...OptionsServerFunc) (*Server, error)`:
builds the default target, applies the options in order, and returns either
`(some target, none)` or `(none, some err)`. -/
def NewLocalHost (opts : List OptionsServerFunc) : Option Server × Option String :=
  match applyOpts opts defaultServer with
  | (s, none) => (some s, none)
  | (_, some e) => (none, some e)

/-- Go string indexing `str[idx]` on a byte string modelled as `List Char`:
`none` models the runtime panic raised when `idx` is negative or not below
the length. -/
def goByteIndex (s : List Char) (idx : Int) : Option Char :=
  if 0 ≤ idx then s[idx.toNat]? else none

/-- Mirror of `getCharacter` (src/article-1/main.go lines 5-15): indexes the string and
converts any panic, via defer/recover, into the error
`attempted to access index %d out of range`; the named return `char` keeps its
zero value in that case. -/
def getCharacter (str : List Char) (index : Int) : Char × Option String :=
  match goByteIndex str index with
  | some c => (c, none)
  | none => ('\x00', some ("attempted to access index " ++ toString index ++ " out of range"))

/-- Mirror of `getCharIndex` (src/article-1/README.md, the best-practice rewrite): checks
`len(str) > idx` and either indexes the string or reports an error.  The outer
`Option` is `none` when the unprotected index expression panics (there is no
recover here, so the panic escapes). -/
def getCharIndex (str : List Char) (idx : Int) : Option (Char × Option String) :=
  if (str.length : Int) > idx then
    match goByteIndex str idx with
    | some c => some (c, none)
    | none => none
  else
    some ('\x00', some ("Index " ++ toString idx ++ " was not exist in  the string \x27"
      ++ String.mk str ++ "\x27"))

/-- The recover-based `getCharIndex` of src/article-1/README.md (the try-catch
version before the rewrite): any panic of the index expression is caught and
turned into the same formatted index-not-exist error message. -/
def getCharIndexRecover (str : List Char) (idx : Int) : Char × Option String :=
  match goByteIndex str idx with
  | some c => (c, none)
  | none => ('\x00', some ("Index " ++ toString idx ++ " was not exist in  the string \x27"
      ++ String.mk str ++ "\x27"))

/-- Unfolding `WithPort` when the port is in range. -/
theorem WithPort_in_range (p : Int) (s : Server) (h₁ : 5000 ≤ p) (h₂ : p < 10000) :
    WithPort p s = ({ s with port := p }, none) := by
  simp only [WithPort]
  rw [if_pos ⟨h₁, h₂⟩]

/-- Unfolding `WithPort` when the port is out of range. -/
theorem WithPort_out_of_range (p : Int) (s : Server) (h : ¬(5000 ≤ p ∧ p < 10000)) :
    WithPort p s =
      (s, some ("port " ++ toString p ++ " is out of the valid range (5000-9999)")) := by
  simp only [WithPort]
  rw [if_neg h]

/-- One successful loop step. -/
theorem applyOpts_cons_ok (opt : OptionsServerFunc) (rest : List OptionsServerFunc)
    (s s' : Server) (h : opt s = (s', none)) :
    applyOpts (opt :: rest) s = applyOpts rest s' := by
  simp only [applyOpts, h]

/-- One failing loop step. -/
theorem applyOpts_cons_err (opt : OptionsServerFunc) (rest : List OptionsServerFunc)
    (s s' : Server) (e : String) (h : opt s = (s', some e)) :
    applyOpts (opt :: rest) s = (s', some e) := by
  simp only [applyOpts, h]

/-- Evaluating `NewLocalHost` on a loop that finishes without error. -/
theorem newLocalHost_eq_ok (opts : List OptionsServerFunc) (s : Server)
    (h : applyOpts opts defaultServer = (s, none)) :
    NewLocalHost opts = (some s, none) := by
  simp only [NewLocalHost, h]

/-- Evaluating `NewLocalHost` on a loop that stops at an error. -/
theorem newLocalHost_eq_err (opts : List OptionsServerFunc) (s : Server) (e : String)
    (h : applyOpts opts defaultServer = (s, some e)) :
    NewLocalHost opts = (none, some e) := by
  simp only [NewLocalHost, h]

/-- Splitting the option loop at an append. -/
theorem applyOpts_append (l₁ l₂ : List OptionsServerFunc) (s : Server) :
    applyOpts (l₁ ++ l₂) s =
      match applyOpts l₁ s with
      | (s', none) => applyOpts l₂ s'
      | (s', some e) => (s', some e) := by
  induction l₁ generalizing s with
  | nil => rfl
  | cons opt rest ih =>
    simp only [List.cons_append, applyOpts]
    rcases h : opt s with ⟨s', e⟩
    cases e with
    | none => exact ih s'
    | some e => rfl

/-- Claim C1: for every integer `p`, the option `WithPort p`, applied to any
target, sets the port to `p` and succeeds exactly when `5000 ≤ p < 10000`;
for every `p` outside that range it returns the error naming the rejected
value and the valid range, leaves the target (in particular its port field)
unmodified, and `NewLocalHost` applied to it yields no usable target and that
error. -/
theorem withPort_validates (p : Int) (s : Server) :
    (5000 ≤ p ∧ p < 10000 → WithPort p s = ({ s with port := p }, none)) ∧
    (¬(5000 ≤ p ∧ p < 10000) →
      WithPort p s =
        (s, some ("port " ++ toString p ++ " is out of the valid range (5000-9999)")) ∧
      NewLocalHost [WithPort p] =
        (none, some ("port " ++ toString p ++ " is out of the valid range (5000-9999)"))) := by
  constructor
  · intro h
    exact WithPort_in_range p s h.1 h.2
  · intro h
    refine ⟨WithPort_out_of_range p s h, ?_⟩
    exact newLocalHost_eq_err _ _ _
      (applyOpts_cons_err _ _ _ _ _ (WithPort_out_of_range p defaultServer h))

/-- Witness for C1 at the concrete ports 7000 (accepted) and 99999 (rejected). -/
theorem withPort_validates_witness :
    WithPort 7000 defaultServer = ({ defaultServer with port := 7000 }, none) ∧
    WithPort 99999 defaultServer =
      (defaultServer,
        some ("port " ++ toString (99999 : Int) ++ " is out of the valid range (5000-9999)")) ∧
    NewLocalHost [WithPort 99999] =
      (none,
        some ("port " ++ toString (99999 : Int) ++ " is out of the valid range (5000-9999)")) :=
  ⟨(withPort_validates 7000 defaultServer).1 (by decide),
   ((withPort_validates 99999 defaultServer).2 (by decide)).1,
   ((withPort_validates 99999 defaultServer).2 (by decide)).2⟩

/-- Claim C2: when the options before `opt` all succeed and `opt` fails,
`NewLocalHost` returns the nil target and exactly the error of that first
failing option, whatever options follow it — the trailing options `post` are
arbitrary and never influence the result, i.e. they are never invoked. -/
theorem newLocalHost_first_failure (pre post : List OptionsServerFunc)
    (opt : OptionsServerFunc) (s s' : Server) (e : String)
    (hpre : applyOpts pre defaultServer = (s, none))
    (hfail : opt s = (s', some e)) :
    NewLocalHost (pre ++ opt :: post) = (none, some e) := by
  refine newLocalHost_eq_err _ s' e ?_
  rw [applyOpts_append, hpre]
  exact applyOpts_cons_err opt post s s' e hfail

/-- Witness for C2: the failing `WithPort 3` comes first, the later
`WithTimeout` is never reached. -/
theorem newLocalHost_first_failure_witness :
    NewLocalHost [WithPort 3, WithTimeout (7 * second)] =
      (none, some "port 3 is out of the valid range (5000-9999)") :=
  newLocalHost_first_failure [] [WithTimeout (7 * second)] (WithPort 3)
    defaultServer defaultServer "port 3 is out of the valid range (5000-9999)" rfl (by decide)

/-- Claim C3: with zero options, `NewLocalHost` returns the hard-coded default
target — host `127.0.0.1`, port `8080`, timeout 3 seconds — and no error. -/
theorem newLocalHost_nil_defaults :
    NewLocalHost [] =
      (some { host := "127.0.0.1", port := 8080, timeout := 3 * second }, none) := rfl

/-- Claim C4: a single valid helper option sets exactly its field to the
captured value with no error, and the concrete scenario from the article
`NewLocalHost(WithTimeout(5*time.Second), WithPort(7000))` yields
`{127.0.0.1, 7000, 5s}` with no error. -/
theorem newLocalHost_single_option (p t : Int) (h₁ : 5000 ≤ p) (h₂ : p < 10000) :
    NewLocalHost [WithPort p] = (some { defaultServer with port := p }, none) ∧
    NewLocalHost [WithTimeout t] = (some { defaultServer with timeout := t }, none) ∧
    NewLocalHost [WithTimeout (5 * second), WithPort 7000] =
      (some { host := "127.0.0.1", port := 7000, timeout := 5 * second }, none) := by
  refine ⟨?_, rfl, by decide⟩
  exact newLocalHost_eq_ok _ _
    (applyOpts_cons_ok _ _ _ _ (WithPort_in_range p defaultServer h₁ h₂))

/-- Witness for C4 at port 7000 and timeout 5 seconds. -/
theorem newLocalHost_single_option_witness :
    NewLocalHost [WithPort 7000] = (some { defaultServer with port := 7000 }, none) ∧
    NewLocalHost [WithTimeout (5 * second)] =
      (some { defaultServer with timeout := 5 * second }, none) :=
  ⟨(newLocalHost_single_option 7000 (5 * second) (by decide) (by decide)).1,
   (newLocalHost_single_option 7000 (5 * second) (by decide) (by decide)).2.1⟩

/-- Claim C5: of two successfully validating options for the same field, the
later one in the sequence determines the final value. -/
theorem newLocalHost_later_option_wins (p₁ p₂ t₁ t₂ : Int)
    (h₁ : 5000 ≤ p₁) (h₂ : p₁ < 10000) (h₃ : 5000 ≤ p₂) (h₄ : p₂ < 10000) :
    NewLocalHost [WithPort p₁, WithPort p₂] =
      (some { defaultServer with port := p₂ }, none) ∧
    NewLocalHost [WithTimeout t₁, WithTimeout t₂] =
      (some { defaultServer with timeout := t₂ }, none) := by
  refine ⟨?_, rfl⟩
  refine newLocalHost_eq_ok _ _ ?_
  rw [applyOpts_cons_ok _ _ _ _ (WithPort_in_range p₁ defaultServer h₁ h₂),
    applyOpts_cons_ok _ _ _ _ (WithPort_in_range p₂ _ h₃ h₄)]
  rfl

/-- Witness for C5: `NewLocalHost(WithPort(6000), WithPort(7000))` yields
port 7000. -/
theorem newLocalHost_later_option_wins_witness :
    NewLocalHost [WithPort 6000, WithPort 7000] =
      (some { defaultServer with port := 7000 }, none) :=
  (newLocalHost_later_option_wins 6000 7000 0 0
    (by decide) (by decide) (by decide) (by decide)).1

/-- Claim C6: for every option sequence, the result of `NewLocalHost` is
exclusive — either some target with a nil error, or a nil target with a
non-nil error, never both and never neither. -/
theorem newLocalHost_exclusive (opts : List OptionsServerFunc) :
    (∃ s, NewLocalHost opts = (some s, none)) ∨
    (∃ e, NewLocalHost opts = (none, some e)) := by
  rcases h : applyOpts opts defaultServer with ⟨s, e⟩
  cases e with
  | none => exact Or.inl ⟨s, newLocalHost_eq_ok opts s h⟩
  | some e => exact Or.inr ⟨e, newLocalHost_eq_err opts s e h⟩

/-- Claim C7: when an option fails after a successful prefix, the
in-construction target at the moment the loop aborts is exactly the state
`s'` left by the failing option applied to the result `s` of the prefix — every
mutation of the earlier successful options persists in it and no compensating
write is performed — while `NewLocalHost` merely discards that target and
surfaces the error. -/
theorem applyOpts_no_rollback (pre post : List OptionsServerFunc)
    (opt : OptionsServerFunc) (s s' : Server) (e : String)
    (hpre : applyOpts pre defaultServer = (s, none))
    (hfail : opt s = (s', some e)) :
    applyOpts (pre ++ opt :: post) defaultServer = (s', some e) ∧
    NewLocalHost (pre ++ opt :: post) = (none, some e) := by
  have h : applyOpts (pre ++ opt :: post) defaultServer = (s', some e) := by
    rw [applyOpts_append, hpre]
    exact applyOpts_cons_err opt post s s' e hfail
  exact ⟨h, newLocalHost_eq_err _ s' e h⟩

/-- Witness for C7: after the successful `WithTimeout (5s)`, the failing
`WithPort 99` aborts construction, yet the aborted target still carries the
mutated timeout. -/
theorem applyOpts_no_rollback_witness :
    applyOpts [WithTimeout (5 * second), WithPort 99] defaultServer =
      ({ defaultServer with timeout := 5 * second },
        some "port 99 is out of the valid range (5000-9999)") ∧
    NewLocalHost [WithTimeout (5 * second), WithPort 99] =
      (none, some "port 99 is out of the valid range (5000-9999)") :=
  applyOpts_no_rollback [WithTimeout (5 * second)] [] (WithPort 99)
    { defaultServer with timeout := 5 * second }
    { defaultServer with timeout := 5 * second }
    "port 99 is out of the valid range (5000-9999)" rfl (by decide)

/-- The options provided by the helper constructors of the source: `WithPort`
(validated version), `WithTimeout`, and the `WithPort` of the final listing
(unvalidated, embedded as `WithPortFinal`). -/
def IsHelperOption (o : OptionsServerFunc) : Prop :=
  (∃ p, o = WithPort p) ∨ (∃ t, o = WithTimeout t) ∨ (∃ p, o = WithPortFinal p)

/-- Each provided helper leaves the host field unchanged. -/
theorem helper_preserves_host (o : OptionsServerFunc) (ho : IsHelperOption o)
    (s : Server) : ((o s).1).host = s.host := by
  rcases ho with ⟨p, rfl⟩ | ⟨t, rfl⟩ | ⟨p, rfl⟩
  · by_cases h : 5000 ≤ p ∧ p < 10000
    · rw [WithPort_in_range p s h.1 h.2]
    · rw [WithPort_out_of_range p s h]
  · rfl
  · rfl

/-- The loop over host-preserving options preserves the host field. -/
theorem applyOpts_preserves_host (opts : List OptionsServerFunc)
    (hopts : ∀ o ∈ opts, IsHelperOption o) (s : Server) :
    ((applyOpts opts s).1).host = s.host := by
  induction opts generalizing s with
  | nil => rfl
  | cons opt rest ih =>
    have hhead := helper_preserves_host opt (hopts opt (List.mem_cons_self opt rest)) s
    rcases h : opt s with ⟨s', e⟩
    rw [h] at hhead
    cases e with
    | none =>
      rw [applyOpts_cons_ok opt rest s s' h,
        ih (fun o ho => hopts o (List.mem_cons_of_mem opt ho)) s']
      exact hhead
    | some e =>
      rw [applyOpts_cons_err opt rest s s' e h]
      exact hhead

/-- Claim C9: no provided helper ever mutates the host field, and any target
successfully returned by `NewLocalHost` from helper options has the default
host `127.0.0.1`. -/
theorem helpers_never_touch_host (o : OptionsServerFunc) (opts : List OptionsServerFunc)
    (s₀ sr : Server) (ho : IsHelperOption o)
    (hopts : ∀ o' ∈ opts, IsHelperOption o')
    (hr : (NewLocalHost opts).1 = some sr) :
    ((o s₀).1).host = s₀.host ∧ sr.host = "127.0.0.1" := by
  refine ⟨helper_preserves_host o ho s₀, ?_⟩
  have hh := applyOpts_preserves_host opts hopts defaultServer
  rcases h : applyOpts opts defaultServer with ⟨s', e⟩
  rw [h] at hh
  cases e with
  | none =>
    rw [newLocalHost_eq_ok opts s' h] at hr
    cases hr
    exact hh
  | some e =>
    rw [newLocalHost_eq_err opts s' e h] at hr
    cases hr

/-- Witness for C9: `WithPort 7000` leaves the default host unchanged, and the
target built from `WithTimeout 0` has host `127.0.0.1`. -/
theorem helpers_never_touch_host_witness :
    ((WithPort 7000 defaultServer).1).host = defaultServer.host ∧
    Server.host { defaultServer with timeout := 0 } = "127.0.0.1" :=
  helpers_never_touch_host (WithPort 7000) [WithTimeout 0]
    defaultServer { defaultServer with timeout := 0 }
    (Or.inl ⟨7000, rfl⟩)
    (by
      intro o' ho'
      rw [List.mem_singleton] at ho'
      exact Or.inr (Or.inl ⟨0, ho'⟩))
    rfl

/-- The loop over `WithTimeout` options alone never stops at an error. -/
theorem applyOpts_timeouts_ok (ts : List Int) (s : Server) :
    ∃ s', applyOpts (ts.map WithTimeout) s = (s', none) := by
  induction ts generalizing s with
  | nil => exact ⟨s, rfl⟩
  | cons t rest ih =>
    rw [List.map_cons, applyOpts_cons_ok (WithTimeout t) _ s { s with timeout := t } rfl]
    exact ih _

/-- Claim C10: `WithTimeout t` applied to any target sets the timeout to `t`
and reports success, and `NewLocalHost` on any sequence of `WithTimeout`
options alone returns a target and a nil error. -/
theorem withTimeout_never_fails (t : Int) (c : Server) (ts : List Int) :
    WithTimeout t c = ({ c with timeout := t }, none) ∧
    ∃ s, NewLocalHost (ts.map WithTimeout) = (some s, none) := by
  refine ⟨rfl, ?_⟩
  obtain ⟨s', h⟩ := applyOpts_timeouts_ok ts defaultServer
  exact ⟨s', newLocalHost_eq_ok _ _ h⟩

/-- Claim C8 (evaluation at the failing input): at the negative index `-1` on
the article string `Matheus`, the bounds check `len(str) > idx` of the
rewritten `getCharIndex` passes, the index expression panics, and the panic
escapes (result `none`), whereas both recover-based versions return the typed
error the documentation says the rewrite preserves. -/
theorem getCharIndex_negative_index_panics :
    getCharIndex ['M', 'a', 't', 'h', 'e', 'u', 's'] (-1) = none ∧
    getCharIndexRecover ['M', 'a', 't', 'h', 'e', 'u', 's'] (-1) =
      ('\x00', some "Index -1 was not exist in  the string \x27Matheus\x27") ∧
    getCharacter ['M', 'a', 't', 'h', 'e', 'u', 's'] (-1) =
      ('\x00', some "attempted to access index -1 out of range") :=
  ⟨rfl, rfl, rfl⟩

end MyArticles
